import Mathlib

/-!
Verification of the QVncClient RFB protocol engine (qvncclient.cpp).

The definitions below are a shallow embedding of the protocol-level code of
`QVncClient::Private`: bytes are modelled as natural numbers below 256, the
socket as a list of such bytes, and each handler as a pure function over
those lists.  Where a handler both writes pixels and emits Qt signals, the
two facets are modelled by separate functions over the same control
structure (an event trace and a pixel-write list), each translated from the
same source lines.
-/

/-- Big-endian byte pair of a 16-bit value, as laid out by a `quint16_be`
field when the enclosing struct is written to the socket. -/
def be16 (n : Nat) : List Nat :=
  [(n >>> 8) &&& 0xFF, n &&& 0xFF]

/-- Big-endian bytes of a 32-bit value, as laid out by a `quint32_be`. -/
def be32 (n : Nat) : List Nat :=
  [(n >>> 24) &&& 0xFF, (n >>> 16) &&& 0xFF, (n >>> 8) &&& 0xFF, n &&& 0xFF]

/-- Wire rectangle (struct `Rectangle`: x, y, w, h as `quint16_be`). -/
structure RectWire where
  x : Nat
  y : Nat
  w : Nat
  h : Nat
deriving DecidableEq

/-- Byte sequence produced by `QVncClient::Private::framebufferUpdateRequest`
(part_005 lines 1136-1153): message type 3, one incremental flag byte, then
the request rectangle.  `rect = none` models the default-constructed `QRect()`
argument, for which `rect.isEmpty()` holds and the code substitutes the whole
framebuffer `(0, 0, frameBufferWidth, frameBufferHeight)`. -/
def framebufferUpdateRequestBytes (incremental : Bool) (rect : Option RectWire)
    (fbWidth fbHeight : Nat) : List Nat :=
  3 :: (if incremental then 1 else 0) ::
    (match rect with
     | none => be16 0 ++ be16 0 ++ be16 fbWidth ++ be16 fbHeight
     | some r => be16 r.x ++ be16 r.y ++ be16 r.w ++ be16 r.h)

/-- Request issued by every decoder-error recovery site in the source
(`framebufferUpdateRequest();` with no arguments, e.g. part_005 lines 642,
684, 737, 750, 1407, 1214, 1250): the declaration
`framebufferUpdateRequest(bool incremental = true, const QRect &rect = QRect())`
makes such a call incremental over the whole framebuffer. -/
def decoderRecoveryRequest (fbWidth fbHeight : Nat) : List Nat :=
  framebufferUpdateRequestBytes true none fbWidth fbHeight

/-- Observable events of the update loop: an `imageChanged` signal emission
carrying a rectangle, or a call to `framebufferUpdateRequest` with the given
incremental flag. -/
inductive Ev where
  | img (r : RectWire)
  | fbur (incremental : Bool)
deriving DecidableEq

/-- Event trace of the row loop of `QVncClient::Private::handleRawEncoding`
(part_005 lines 1231-1250), by remaining row count.  Each completed row emits
`imageChanged` for the whole rectangle; after the last row the function calls
`framebufferUpdateRequest()` (incremental).  A pixel whose `bitsPerPixel` is
not 32 hits the `default:` case, which logs a warning and returns from the
handler, so when the rectangle has at least one pixel per row and the format
is not 32 bpp the handler produces no event at all. -/
def rawRowsEvents (bpp : Nat) (r : RectWire) : Nat → List Ev
  | 0 => [Ev.fbur true]
  | rows + 1 =>
    if bpp ≠ 32 ∧ r.w ≠ 0 then []
    else Ev.img r :: rawRowsEvents bpp r rows

/-- Event trace of `handleRawEncoding` for a whole rectangle. -/
def handleRawEncodingEvents (bpp : Nat) (r : RectWire) : List Ev :=
  rawRowsEvents bpp r r.h

/-- Control-flow outcomes of `QVncClient::Private::handleZRLEEncoding`
(part_005 lines 1379-1609), distinguished by how the handler leaves:
`emptyPayload` is the `zlibDataLength == 0` early return (line 1386);
`decompressFailure` is the `qUncompress` failure (lines 1404-1409), the ONE
path that calls `framebufferUpdateRequest()`; `truncatedAtSubencoding` is the
warn-and-return when the decompressed data ends before a tile sub-encoding
byte (lines 1430-1433); `unsupportedSubencoding` covers tiles with
sub-encoding 3 or any value outside 0-2, whose branches only warn and
`continue` with the NEXT TILE of the same rectangle (lines 1598-1605);
`truncatedTileData` covers the per-tile truncation warnings that likewise
`continue` (lines 1442-1444, 1477-1480, 1499-1507, 1538-1541); `tilesDecoded`
is the normal completion of the tile loop.  Only `decompressFailure` issues a
request; none of the others discards the rectangle or requests anything. -/
inductive ZrleExit where
  | emptyPayload
  | decompressFailure
  | truncatedAtSubencoding
  | unsupportedSubencoding
  | truncatedTileData
  | tilesDecoded
deriving DecidableEq

/-- Event trace of `handleZRLEEncoding` per exit: the `qUncompress` failure
calls `framebufferUpdateRequest()` before returning; every other path —
including the unsupported-sub-encoding and truncated-data warnings — emits
nothing and issues no request. -/
def handleZRLEEncodingEvents : ZrleExit → List Ev
  | ZrleExit.emptyPayload => []
  | ZrleExit.decompressFailure => [Ev.fbur true]
  | ZrleExit.truncatedAtSubencoding => []
  | ZrleExit.unsupportedSubencoding => []
  | ZrleExit.truncatedTileData => []
  | ZrleExit.tilesDecoded => []

/-- Event trace of `QVncClient::Private::handleTightEncoding` (part_005 lines
635-780): each of its failure paths (timeout, JPEG failure, short read,
inflate failure) calls `framebufferUpdateRequest()` and returns; the
successful path emits nothing. -/
def handleTightEncodingEvents (fails : Bool) : List Ev :=
  if fails then [Ev.fbur true] else []

/-- Event trace of `QVncClient::Private::handleHextileEncoding` (part_005
lines 1262-1368): the handler neither emits `imageChanged` nor requests an
update. -/
def handleHextileEncodingEvents : List Ev := []

/-- Per-rectangle dispatch outcome in `framebufferUpdate`: the four supported
encodings (with the observable success parameter of the fallible decoders)
and the `default:` branch for an unknown encoding tag. -/
inductive EncCase where
  | raw
  | hextile
  | zrle (z : ZrleExit)
  | tight (fails : Bool)
  | unknownTag
deriving DecidableEq

/-- Events produced inside the dispatched decoder for one rectangle. -/
def rectangleEvents (bpp : Nat) (r : RectWire) : EncCase → List Ev
  | .raw => handleRawEncodingEvents bpp r
  | .hextile => handleHextileEncodingEvents
  | .zrle z => handleZRLEEncodingEvents z
  | .tight f => handleTightEncodingEvents f
  | .unknownTag => []

/-- Event trace of `QVncClient::Private::framebufferUpdate` (part_005 lines
1181-1215) over the parsed rectangle list: for each rectangle the dispatched
decoder runs, then `emit q->imageChanged(QRect(rect.x, rect.y, rect.w,
rect.h))` executes — except for an unknown tag, where the `default:` branch
logs a warning and `continue`s past the emit.  After the loop the engine
calls `framebufferUpdateRequest()` (incremental, whole framebuffer). -/
def framebufferUpdateEvents (bpp : Nat) : List (RectWire × EncCase) → List Ev
  | [] => [Ev.fbur true]
  | (r, e) :: rest =>
    rectangleEvents bpp r e ++
      (if e = EncCase.unknownTag then [] else [Ev.img r]) ++
      framebufferUpdateEvents bpp rest

/-- Protocol version as stored by the client (enum `ProtocolVersion`). -/
inductive ProtocolVersion where
  | unknown
  | v33
  | v37
  | v38
deriving DecidableEq

/-- ASCII bytes of the string RFB 003.003 followed by a newline. -/
def rfbVersion33 : List Nat := [82, 70, 66, 32, 48, 48, 51, 46, 48, 48, 51, 10]

/-- ASCII bytes of the string RFB 003.007 followed by a newline. -/
def rfbVersion37 : List Nat := [82, 70, 66, 32, 48, 48, 51, 46, 48, 48, 55, 10]

/-- ASCII bytes of the string RFB 003.008 followed by a newline. -/
def rfbVersion38 : List Nat := [82, 70, 66, 32, 48, 48, 51, 46, 48, 48, 56, 10]

/-- Outcome of `QVncClient::Private::parseProtocolVersion` (part_005 lines
862-877) on the 12 bytes read from the socket: every recognized version
string selects `ProtocolVersion33` (the 3.7 and 3.8 branches carry the
comment that 3.7 is not supported yet), and any other string only logs
`Unsupported protocol version`, leaving the stored version unchanged
(`unknown`). -/
def parseProtocolVersionBytes (value : List Nat) : ProtocolVersion :=
  if value = rfbVersion33 then ProtocolVersion.v33
  else if value = rfbVersion37 then ProtocolVersion.v33
  else if value = rfbVersion38 then ProtocolVersion.v33
  else ProtocolVersion.unknown

/-- Handshaking states of the engine (enum `HandshakingState`). -/
inductive HandshakingState where
  | protocolVersionState
  | securityState
  | securityResultState
  | clientInitState
  | serverInitState
  | waitingState
deriving DecidableEq

/-- Result of one version-handshake step: the bytes written back to the
socket, the handshaking state afterwards, and whether the engine failed or
closed the connection. -/
structure VersionStepResult where
  reply : List Nat
  nextState : HandshakingState
  connectionFailed : Bool
deriving DecidableEq

/-- Effect of `QVncClient::Private::protocolVersionChanged` (part_005 lines
885-904): each known version writes its 12-byte string and moves to
`SecurityState`; the `default:` branch (version still `unknown`) does
nothing.  No branch disconnects the socket, so `connectionFailed` is always
`false` in the source. -/
def protocolVersionChangedStep : ProtocolVersion → VersionStepResult
  | ProtocolVersion.v33 => ⟨rfbVersion33, HandshakingState.securityState, false⟩
  | ProtocolVersion.v37 => ⟨rfbVersion37, HandshakingState.securityState, false⟩
  | ProtocolVersion.v38 => ⟨rfbVersion38, HandshakingState.securityState, false⟩
  | ProtocolVersion.unknown => ⟨[], HandshakingState.protocolVersionState, false⟩

/-- Composition of reading the 12 version bytes and reacting to the parsed
version, as triggered through the `protocolVersionChanged` signal (the
version starts out `unknown` on connect, so a recognized string always fires
the signal, and an unrecognized one leaves it `unknown` and fires nothing,
modelled by the `unknown` row of `protocolVersionChangedStep`). -/
def versionHandshakeStep (value : List Nat) : VersionStepResult :=
  protocolVersionChangedStep (parseProtocolVersionBytes value)

/-- Twelve bytes the source does not recognize: RFB 009.009 and a newline. -/
def unknownVersionBytes : List Nat := [82, 70, 66, 32, 48, 48, 57, 46, 48, 48, 57, 10]

/-- Containment of a wire rectangle in the framebuffer area, the predicate
the dimension law of the spec asserts of every ImageChanged rectangle. -/
def rectInFramebuffer (fbWidth fbHeight : Nat) (r : RectWire) : Prop :=
  r.x + r.w ≤ fbWidth ∧ r.y + r.h ≤ fbHeight

instance (fbWidth fbHeight : Nat) (r : RectWire) :
    Decidable (rectInFramebuffer fbWidth fbHeight r) := by
  unfold rectInFramebuffer; infer_instance

/-- Framebuffer image as held by the client: dimensions plus pixel map. -/
structure FBImage where
  width : Nat
  height : Nat
  pix : Nat → Nat → Nat

/-- Image created by `QVncClient::Private::parserServerInit` (part_005 lines
1054-1098): `image = QImage(framebufferWidth, framebufferHeight,
QImage::Format_ARGB32); image.fill(Qt::white);`. -/
def serverInitImage (framebufferWidth framebufferHeight : Nat) : FBImage :=
  ⟨framebufferWidth, framebufferHeight, fun _ _ => 0xFFFFFFFF⟩

/-- Pixel format fields used by the decoders (struct `PixelFormat`, part_005
lines 190-204; depth, trueColourFlag and the padding bytes are read from the
wire but never consulted by a decoder, so they are omitted here). -/
structure PixelFormat where
  bitsPerPixel : Nat
  bigEndianFlag : Nat
  redMax : Nat
  greenMax : Nat
  blueMax : Nat
  redShift : Nat
  greenShift : Nat
  blueShift : Nat
deriving DecidableEq

/-- Function qRgb of Qt: opaque alpha and the three channels masked to 8 bits. -/
def qRgb (r g b : Nat) : Nat :=
  ((0xFF <<< 24) ||| ((r &&& 0xFF) <<< 16)) ||| (((g &&& 0xFF) <<< 8) ||| (b &&& 0xFF))

/-- Shift-and-mask channel extraction applied before every `setPixel` in the
decoders: `r = (color >> redShift) & redMax` and so on, written verbatim into
qRgb with no rescaling. -/
def pixelToRgb (pf : PixelFormat) (color : Nat) : Nat :=
  qRgb ((color >>> pf.redShift) &&& pf.redMax)
    ((color >>> pf.greenShift) &&& pf.greenMax)
    ((color >>> pf.blueShift) &&& pf.blueMax)

/-- Little-endian 32-bit read performed by `read(&color)` into a variable
declared `quint32_le`: the first byte of the stream is the least significant.
The Raw and Hextile decoders declare every pixel word this way
(part_005 lines 1235, 1286, 1301, 1322, 1339). -/
def readQuint32LE : List Nat → Option (Nat × List Nat)
  | b0 :: b1 :: b2 :: b3 :: rest =>
    some (((b0 ||| (b1 <<< 8)) ||| ((b2 <<< 16) ||| (b3 <<< 24))), rest)
  | _ => none

/-- Decoding of one 32-bpp Raw pixel by `handleRawEncoding` (part_005 lines
1234-1240): the pixel word is read through a `quint32_le`, a type that is
little-endian unconditionally — `pixelFormat.bigEndianFlag` is never
consulted — and the word then goes through the shift-and-mask extraction. -/
def rawDecodeOnePixel (pf : PixelFormat) (input : List Nat) : Option (Nat × List Nat) :=
  match readQuint32LE input with
  | some (color, rest) => some (pixelToRgb pf color, rest)
  | none => none

/-- Pixel-word interpretation exactly as claim C7 words it: a little-endian
integer when bigEndianFlag is 0 and a big-endian integer otherwise, before
the per-channel extraction is applied. -/
def claimRawPixelWord (pf : PixelFormat) : List Nat → Option (Nat × List Nat)
  | b0 :: b1 :: b2 :: b3 :: rest =>
    if pf.bigEndianFlag = 0 then
      some (((b0 ||| (b1 <<< 8)) ||| ((b2 <<< 16) ||| (b3 <<< 24))), rest)
    else
      some (((b3 ||| (b2 <<< 8)) ||| ((b1 <<< 16) ||| (b0 <<< 24))), rest)
  | _ => none

/-- Pixel format advertising big-endian 32-bpp true colour (0888). -/
def pfBigEndian : PixelFormat := ⟨32, 1, 255, 255, 255, 16, 8, 0⟩

/-- Pixel format advertising little-endian 32-bpp true colour (0888). -/
def pfLittleEndian : PixelFormat := ⟨32, 0, 255, 255, 255, 16, 8, 0⟩

/-- Effect of one Tight compression-control byte on the four persistent zlib
stream histories (`handleTightEncoding`, part_005 lines 649-703): the code
computes `resetStream = (compControl & 0x80) != 0` and `streamId =
compControl & 0x03`, but the JPEG dispatch `(compControl & 0x0F) == 0x09`
(line 653) RETURNS from the handler — on every one of its paths, success or
failure — before the reset block at lines 691-694 is reached, so a JPEG
control byte never resets anything.  On the non-JPEG path, when reset is
requested the code calls `inflateEnd` and re-initialises that SINGLE stream,
leaving the dictionary of every other stream alone.  The accumulated
dictionary of a stream is modelled as a byte list; resetting makes it
empty. -/
def tightApplyControl (compControl : Nat) (hist : Fin 4 → List Nat) : Fin 4 → List Nat :=
  if compControl &&& 0x0F = 0x09 then hist
  else fun k =>
    if compControl &&& 0x80 ≠ 0 ∧ (k : Nat) = compControl &&& 0x03 then [] else hist k

/-- Reset behaviour exactly as claim C8 words it: each bit k of the high
nibble of the control byte independently clears stream k. -/
def claimApplyControl (compControl : Nat) (hist : Fin 4 → List Nat) : Fin 4 → List Nat :=
  fun k => if (compControl >>> (4 + (k : Nat))) &&& 1 = 1 then [] else hist k

/-- Histories in which every one of the four streams holds one byte. -/
def oneEntryHistories : Fin 4 → List Nat := fun _ => [42]

/-- Token of a zlib-compressed stream at the granularity that matters for
dictionary persistence: a literal byte, or a back-reference copying the byte
`d` positions before the current end of the decompressed output (the LZ77
window of DEFLATE).  The inflater itself lives in zlib and Qt, outside this
repository: the repository code only chooses how it is invoked. -/
inductive ZTok where
  | lit (b : Nat)
  | back (d : Nat)
deriving DecidableEq

/-- Run of an inflater over a token list, threading the dictionary `hist`
accumulated so far; each output byte is appended to the dictionary.  A
back-reference past the start of the dictionary yields the out-of-window
behaviour of the inflater, modelled as byte 0. -/
def inflateRun : List ZTok → List Nat → List Nat
  | [], hist => hist
  | ZTok.lit b :: ts, hist => inflateRun ts (hist ++ [b])
  | ZTok.back d :: ts, hist => inflateRun ts (hist ++ [hist.getD (hist.length - d) 0])

/-- Pixel bytes obtained for two consecutive ZRLE rectangles by
`QVncClient::Private::handleZRLEEncoding` (part_005 line 1403): each
payload of each rectangle is handed to the STATELESS `qUncompress`, so each
rectangle is inflated from an empty dictionary and no z_stream is kept on
the connection.  (qUncompress moreover expects a Qt-specific four-byte size
prefix that an RFB server never sends; the resulting failure path is the
recovery request covered by C1.) -/
def zrleDecodePerRect (p1 p2 : List ZTok) : List Nat × List Nat :=
  (inflateRun p1 [], inflateRun p2 [])

/-- Decoding of the same two rectangles through a single persistent zlib
context, as claim C2 requires: the second rectangle is inflated with the
output of the first rectangle already in the dictionary, exactly as if the two
payloads were one continuous stream. -/
def zrleDecodePersistent (p1 p2 : List ZTok) : List Nat × List Nat :=
  (inflateRun p1 [],
    (inflateRun p2 (inflateRun p1 [])).drop (inflateRun p1 []).length)

/-- Key map built in the `Private` constructor (part_005 lines 531-566),
mapping Qt key codes (qnamespace.h values) to X11 keysyms. -/
def keyMapList : List (Nat × Nat) :=
  [(0x01000003, 0xff08), (0x01000001, 0xff09), (0x01000004, 0xff0d), (0x01000005, 0xff0d),
   (0x01000006, 0xff63), (0x01000007, 0xffff), (0x01000010, 0xff50), (0x01000011, 0xff57),
   (0x01000016, 0xff55), (0x01000017, 0xff56), (0x01000012, 0xff51), (0x01000013, 0xff52),
   (0x01000014, 0xff53), (0x01000015, 0xff54),
   (0x01000030, 0xffbe), (0x01000031, 0xffbf), (0x01000032, 0xffc0), (0x01000033, 0xffc1),
   (0x01000034, 0xffc2), (0x01000035, 0xffc3), (0x01000036, 0xffc4), (0x01000037, 0xffc5),
   (0x01000038, 0xffc6), (0x01000039, 0xffc7), (0x0100003a, 0xffc8), (0x0100003b, 0xffc9),
   (0x01000020, 0xffe1), (0x01000021, 0xffe3), (0x01000022, 0xffe7), (0x01000023, 0xffe9)]

/-- Keysym value chosen by `QVncClient::Private::keyEvent` (part_005 lines
1626-1633): the mapped keysym when the key is in the table, otherwise the
first UTF-16 code unit of the event text when that text is non-empty,
otherwise the never-assigned local variable `quint32_be code` — an
indeterminate value modelled by the unconstrained `junk` parameter. -/
def keyEventKeysym (key : Nat) (text : List Nat) (junk : Nat) : Nat :=
  match keyMapList.lookup key with
  | some v => v
  | none =>
    match text with
    | t :: _ => t
    | [] => junk

/-- Bytes written by `keyEvent` (part_005 lines 1617-1634): message type 4,
the down flag, two literal space bytes of padding (`socket->write("  ")`),
then the keysym as a big-endian 32-bit word. -/
def keyEventBytes (isPress : Bool) (key : Nat) (text : List Nat) (junk : Nat) : List Nat :=
  4 :: (if isPress then 1 else 0) :: 0x20 :: 0x20 :: be32 (keyEventKeysym key text junk)

/-- Length decoding of the JPEG branch of `handleTightEncoding` (part_005
lines 654-679): one length byte is read; if its high bit is set, TWO more
bytes follow unconditionally and the length is the big-endian combination
`((b0 & 0x7F) << 16) | (b1 << 8) | b2`; otherwise the length is b0.  The
high bit of the second byte is never examined. -/
def tightJpegLength : List Nat → Option (Nat × List Nat)
  | [] => none
  | b0 :: rest =>
    if b0 &&& 0x80 ≠ 0 then
      match rest with
      | b1 :: b2 :: rest2 =>
        some ((((b0 &&& 0x7F) <<< 16) ||| (b1 <<< 8)) ||| b2, rest2)
      | _ => none
    else some (b0, rest)

/-- Length decoding of the basic-compression branch of `handleTightEncoding`
(part_005 lines 706-723): the format is keyed on bit 7 of the COMPRESSION
CONTROL byte, not on the length bytes themselves — one raw byte when that
bit is clear, else three bytes big-endian `(b0 << 16) | (b1 << 8) | b2` with
no mask on the first byte. -/
def tightBasicLength (compControl : Nat) (bs : List Nat) : Option (Nat × List Nat) :=
  if compControl &&& 0x80 = 0 then
    match bs with
    | len :: rest => some (len, rest)
    | [] => none
  else
    match bs with
    | lenHigh :: lenMid :: lenLow :: rest =>
      some (((lenHigh <<< 16) ||| (lenMid <<< 8)) ||| lenLow, rest)
    | _ => none

/-- Length decoding exactly as claim C3 words it: the 1-to-3-byte
continuation scheme in which the high bit of each byte says whether another byte
follows and the payload bits are combined little-endian, 7 bits at a time. -/
def claimTightLength : List Nat → Option (Nat × List Nat)
  | [] => none
  | b0 :: rest =>
    if b0 &&& 0x80 = 0 then some (b0, rest)
    else
      match rest with
      | [] => none
      | b1 :: rest1 =>
        if b1 &&& 0x80 = 0 then some ((b0 &&& 0x7F) ||| (b1 <<< 7), rest1)
        else
          match rest1 with
          | [] => none
          | b2 :: rest2 =>
            some (((b0 &&& 0x7F) ||| ((b1 &&& 0x7F) <<< 7)) ||| (b2 <<< 14), rest2)

/-- Inner column loop of `handleRawEncoding` (part_005 lines 1232-1246), one
pixel per iteration at row y, starting at column x with `cols` pixels left:
the 32-bpp case reads a little-endian word and writes the extracted colour;
any other depth hits the `default:` case, which logs a warning and returns
from the handler — modelled as `none` (as is exhausted input, which the real
code rules out by blocking until the whole rectangle is available). -/
def rawRowWrites (pf : PixelFormat) (y : Nat) : Nat → Nat → List Nat →
    Option (List ((Nat × Nat) × Nat) × List Nat)
  | _, 0, input => some ([], input)
  | x, cols + 1, input =>
    if pf.bitsPerPixel = 32 then
      match readQuint32LE input with
      | some (color, rest) =>
        match rawRowWrites pf y (x + 1) cols rest with
        | some (ws, rest2) => some (((x, y), pixelToRgb pf color) :: ws, rest2)
        | none => none
      | none => none
    else none

/-- Row loop of `handleRawEncoding`: rows processed top to bottom starting at
row y, each row spanning `w` pixels from column x0. -/
def rawRowsWrites (pf : PixelFormat) (x0 w : Nat) : Nat → Nat → List Nat →
    Option (List ((Nat × Nat) × Nat) × List Nat)
  | _, 0, input => some ([], input)
  | y, rows + 1, input =>
    match rawRowWrites pf y x0 w input with
    | some (ws, rest) =>
      match rawRowsWrites pf x0 w (y + 1) rows rest with
      | some (ws2, rest2) => some (ws ++ ws2, rest2)
      | none => none
    | none => none

/-- Pixel writes of `handleRawEncoding` (part_005 lines 1225-1251) for a
whole rectangle, in framebuffer coordinates. -/
def handleRawEncodingWrites (pf : PixelFormat) (r : RectWire) (input : List Nat) :
    Option (List ((Nat × Nat) × Nat)) :=
  match rawRowsWrites pf r.x r.w r.y r.h input with
  | some (ws, _) => some ws
  | none => none

/-- Background-fill loop of a non-raw Hextile tile (part_005 lines
1307-1315): every pixel of the tile is painted with the current background
colour.  This loop carries NO bitsPerPixel guard in the source. -/
def hextileFill (pf : PixelFormat) (x0 y0 tw th : Nat) (bg : Nat) :
    List ((Nat × Nat) × Nat) :=
  (List.range th).flatMap fun y =>
    (List.range tw).map fun x => ((x0 + x, y0 + y), pixelToRgb pf bg)

/-- Pixel loop of a raw-subencoded Hextile tile (part_005 lines 1282-1296):
each pixel read and write is guarded by `bitsPerPixel == 32` individually;
with any other depth the iteration silently reads and writes nothing — it
does not abort. -/
def hextileRawRow (pf : PixelFormat) (y : Nat) : Nat → Nat → List Nat →
    Option (List ((Nat × Nat) × Nat) × List Nat)
  | _, 0, input => some ([], input)
  | x, cols + 1, input =>
    if pf.bitsPerPixel = 32 then
      match readQuint32LE input with
      | some (color, rest) =>
        match hextileRawRow pf y (x + 1) cols rest with
        | some (ws, rest2) => some (((x, y), pixelToRgb pf color) :: ws, rest2)
        | none => none
      | none => none
    else hextileRawRow pf y (x + 1) cols input

/-- Row loop of a raw-subencoded Hextile tile. -/
def hextileRawRows (pf : PixelFormat) (x0 tw : Nat) : Nat → Nat → List Nat →
    Option (List ((Nat × Nat) × Nat) × List Nat)
  | _, 0, input => some ([], input)
  | y, rows + 1, input =>
    match hextileRawRow pf y x0 tw input with
    | some (ws, rest) =>
      match hextileRawRows pf x0 tw (y + 1) rows rest with
      | some (ws2, rest2) => some (ws ++ ws2, rest2)
      | none => none
    | none => none

/-- Subrectangle loop of a Hextile tile (part_005 lines 1333-1364): for each
of the remaining subrects, an optional colour word (only when
SubrectsColoured is set AND the depth is 32), then the two packed geometry
bytes xy and wh — read unconditionally — and the clipped draw loop. -/
def hextileSubrects (pf : PixelFormat) (x0 y0 tw th s fg : Nat) :
    Nat → List Nat → Option (List ((Nat × Nat) × Nat) × List Nat)
  | 0, input => some ([], input)
  | n + 1, input =>
    match (if s &&& 16 ≠ 0 ∧ pf.bitsPerPixel = 32 then readQuint32LE input
           else some (fg, input)) with
    | none => none
    | some (color, in1) =>
      match in1 with
      | xy :: wh :: in2 =>
        match hextileSubrects pf x0 y0 tw th s fg n in2 with
        | some (ws2, rest) =>
          some ((((List.range ((wh &&& 0xF) + 1)).filter
                    fun dy => (xy &&& 0xF) + dy < th).flatMap fun dy =>
                  ((List.range (((wh >>> 4) &&& 0xF) + 1)).filter
                    fun dx => ((xy >>> 4) &&& 0xF) + dx < tw).map fun dx =>
                    ((x0 + ((xy >>> 4) &&& 0xF) + dx, y0 + (xy &&& 0xF) + dy),
                      pixelToRgb pf color)) ++ ws2, rest)
        | none => none
      | _ => none

/-- One Hextile tile of `handleHextileEncoding` (part_005 lines 1274-1365):
tile origin (x0, y0), size tw by th, subencoding byte s, and the background
and foreground state carried across tiles.  Each pixel-word read is guarded
by `bitsPerPixel == 32` individually; the background fill and the subrect
geometry reads are not guarded at all.  The result is the write list, the
(background, foreground) state after the tile, and the remaining stream;
`none` arises only from exhausted input, never from an abort — the source
has no abort or warning path in this handler. -/
def hextileTile (pf : PixelFormat) (x0 y0 tw th s bg fg : Nat) (input : List Nat) :
    Option (List ((Nat × Nat) × Nat) × (Nat × Nat) × List Nat) :=
  if s &&& 1 ≠ 0 then
    match hextileRawRows pf x0 tw y0 th input with
    | some (ws, rest) => some (ws, (bg, fg), rest)
    | none => none
  else
    match (if s &&& 2 ≠ 0 ∧ pf.bitsPerPixel = 32 then readQuint32LE input
           else some (bg, input)) with
    | none => none
    | some (bg1, in1) =>
      if s &&& 8 ≠ 0 then
        match (if s &&& 4 ≠ 0 ∧ pf.bitsPerPixel = 32 then readQuint32LE in1
               else some (fg, in1)) with
        | none => none
        | some (fg1, in2) =>
          match in2 with
          | numSubrects :: in3 =>
            match hextileSubrects pf x0 y0 tw th s fg1 numSubrects in3 with
            | some (subWs, in4) =>
              some (hextileFill pf x0 y0 tw th bg1 ++ subWs, (bg1, fg1), in4)
            | none => none
          | [] => none
      else some (hextileFill pf x0 y0 tw th bg1, (bg1, fg), in1)

/-- RGB565 16-bpp pixel format, exercising the non-32-bpp paths. -/
def pf16 : PixelFormat := ⟨16, 0, 31, 63, 31, 11, 5, 0⟩

theorem rawRowsEvents_fbur_true (bpp : Nat) (r : RectWire) :
    ∀ n b, Ev.fbur b ∈ rawRowsEvents bpp r n → b = true := by
  intro n
  induction n with
  | zero =>
    intro b hb
    simp [rawRowsEvents] at hb
    exact hb
  | succ k ih =>
    intro b hb
    by_cases hc : bpp ≠ 32 ∧ r.w ≠ 0
    · simp [rawRowsEvents, hc] at hb
    · simp only [rawRowsEvents, if_neg hc, List.mem_cons] at hb
      rcases hb with hb | hb
      · cases hb
      · exact ih b hb

theorem rectangleEvents_fbur_true (bpp : Nat) (r : RectWire) (e : EncCase) :
    ∀ b, Ev.fbur b ∈ rectangleEvents bpp r e → b = true := by
  intro b hb
  cases e with
  | raw => exact rawRowsEvents_fbur_true bpp r r.h b hb
  | hextile => simp [rectangleEvents, handleHextileEncodingEvents] at hb
  | zrle z =>
    cases z <;> simp [rectangleEvents, handleZRLEEncodingEvents] at hb
    exact hb
  | tight f =>
    cases f with
    | false => simp [rectangleEvents, handleTightEncodingEvents] at hb
    | true =>
      simp [rectangleEvents, handleTightEncodingEvents] at hb
      exact hb
  | unknownTag => simp [rectangleEvents] at hb

theorem framebufferUpdateEvents_fbur_true (bpp : Nat) :
    ∀ rs b, Ev.fbur b ∈ framebufferUpdateEvents bpp rs → b = true := by
  intro rs
  induction rs with
  | nil =>
    intro b hb
    simp [framebufferUpdateEvents] at hb
    exact hb
  | cons p rest ih =>
    intro b hb
    obtain ⟨r, e⟩ := p
    simp only [framebufferUpdateEvents, List.mem_append] at hb
    rcases hb with (hb | hb) | hb
    · exact rectangleEvents_fbur_true bpp r e b hb
    · by_cases he : e = EncCase.unknownTag <;> simp [he] at hb
    · exact ih b hb

theorem rawRowsEvents_img_eq (bpp : Nat) (r : RectWire) :
    ∀ n s, Ev.img s ∈ rawRowsEvents bpp r n → s = r := by
  intro n
  induction n with
  | zero =>
    intro s hs
    simp [rawRowsEvents] at hs
  | succ k ih =>
    intro s hs
    by_cases hc : bpp ≠ 32 ∧ r.w ≠ 0
    · simp [rawRowsEvents, hc] at hs
    · simp only [rawRowsEvents, if_neg hc, List.mem_cons] at hs
      rcases hs with hs | hs
      · cases hs; rfl
      · exact ih s hs

theorem rectangleEvents_img_eq (bpp : Nat) (r : RectWire) (e : EncCase) :
    ∀ s, Ev.img s ∈ rectangleEvents bpp r e → s = r := by
  intro s hs
  cases e with
  | raw => exact rawRowsEvents_img_eq bpp r r.h s hs
  | hextile => simp [rectangleEvents, handleHextileEncodingEvents] at hs
  | zrle z => cases z <;> simp [rectangleEvents, handleZRLEEncodingEvents] at hs
  | tight f => cases f <;> simp [rectangleEvents, handleTightEncodingEvents] at hs
  | unknownTag => simp [rectangleEvents] at hs

/-- C1 (amended): the recovery behaviour the claim describes exists only for
the whole-rectangle failures, and even there the request is INCREMENTAL: the
ZRLE `qUncompress` failure and every Tight failure path discard the current
rectangle and call `framebufferUpdateRequest()` with its default arguments —
an incremental request covering the whole framebuffer, never the claimed
non-incremental one.  The ZRLE unsupported sub-encodings (3 and everything
outside 0-2) and the truncated-data cases only log a warning and continue or
return: they issue NO request at all and do not discard the rectangle.  An
unknown encoding tag is skipped (the update loop continues with the next
rectangle) rather than marking the connection Failed, and every
`FramebufferUpdateRequest` appearing in an update-loop trace, including the
recovery requests, is incremental. -/
theorem c1_theorem (fbWidth fbHeight bpp : Nat) (rs : List (RectWire × EncCase)) :
    decoderRecoveryRequest fbWidth fbHeight =
      3 :: 1 :: (be16 0 ++ be16 0 ++ be16 fbWidth ++ be16 fbHeight) ∧
    handleZRLEEncodingEvents ZrleExit.decompressFailure = [Ev.fbur true] ∧
    handleTightEncodingEvents true = [Ev.fbur true] ∧
    (∀ z, z ≠ ZrleExit.decompressFailure → handleZRLEEncodingEvents z = []) ∧
    (∀ r rest, framebufferUpdateEvents bpp ((r, EncCase.unknownTag) :: rest) =
      framebufferUpdateEvents bpp rest) ∧
    (∀ b, Ev.fbur b ∈ framebufferUpdateEvents bpp rs → b = true) := by
  refine ⟨rfl, rfl, rfl, ?_, ?_, ?_⟩
  · intro z hz
    cases z <;> simp [handleZRLEEncodingEvents] at hz ⊢
  · intro r rest
    simp [framebufferUpdateEvents, rectangleEvents]
  · intro b hb
    exact framebufferUpdateEvents_fbur_true bpp rs b hb

/-- Witness for `c1_theorem`: the unsupported-sub-encoding exit issues no
request, while a failing-decompression ZRLE rectangle leaves an incremental
request in a concrete trace, on which the theorem forces the flag true. -/
theorem c1_witness :
    (ZrleExit.unsupportedSubencoding ≠ ZrleExit.decompressFailure) ∧
    handleZRLEEncodingEvents ZrleExit.unsupportedSubencoding = [] ∧
    (Ev.fbur true ∈
      framebufferUpdateEvents 32 [(⟨0, 0, 1, 1⟩, EncCase.zrle ZrleExit.decompressFailure)]) ∧
    true = true :=
  ⟨by decide,
   (c1_theorem 4 4 32 [(⟨0, 0, 1, 1⟩, EncCase.zrle ZrleExit.decompressFailure)]).2.2.2.1
     ZrleExit.unsupportedSubencoding (by decide),
   by decide,
   (c1_theorem 4 4 32 [(⟨0, 0, 1, 1⟩, EncCase.zrle ZrleExit.decompressFailure)]).2.2.2.2.2
     true (by decide)⟩

/-- Counterexample to C1 as stated: the recovery request issued after a
whole-rectangle decoder error is byte-for-byte an incremental request (flag
byte 1), not the non-incremental request (flag byte 0) the claim demands; and
the unsupported-sub-encoding error issues no request of either kind. -/
theorem c1_counterexample :
    (decoderRecoveryRequest 4 4)[1]? = some 1 ∧
    (framebufferUpdateRequestBytes false none 4 4)[1]? = some 0 ∧
    decoderRecoveryRequest 4 4 ≠ framebufferUpdateRequestBytes false none 4 4 ∧
    handleZRLEEncodingEvents ZrleExit.unsupportedSubencoding = [] ∧
    handleZRLEEncodingEvents ZrleExit.truncatedTileData = [] := by
  decide

/-- C4 (amended): for a FramebufferUpdate whose rectangles are decoded by the
Hextile, ZRLE or Tight decoders without a decoder failure, exactly one
ImageChanged is emitted per rectangle, in wire order, and the single
FramebufferUpdateRequest comes after the last rectangle.  (The Raw decoder
breaks the general claim: it emits ImageChanged once per row and issues an
extra request of its own right after its rectangle, as
`c4_counterexample` shows.) -/
theorem c4_theorem (bpp : Nat) (rs : List (RectWire × EncCase))
    (h : ∀ p ∈ rs, p.2 = EncCase.hextile ∨ p.2 = EncCase.zrle ZrleExit.tilesDecoded ∨
      p.2 = EncCase.tight false) :
    framebufferUpdateEvents bpp rs = rs.map (fun p => Ev.img p.1) ++ [Ev.fbur true] := by
  induction rs with
  | nil => rfl
  | cons p rest ih =>
    obtain ⟨r, e⟩ := p
    have hp := h (r, e) (List.mem_cons_self _ _)
    have hrest := fun q hq => h q (List.mem_cons_of_mem _ hq)
    rcases hp with hp | hp | hp <;>
      · simp only at hp
        subst hp
        simp [framebufferUpdateEvents, rectangleEvents, handleHextileEncodingEvents,
          handleZRLEEncodingEvents, handleTightEncodingEvents, ih hrest]

/-- Witness for `c4_theorem` on a concrete two-rectangle update. -/
theorem c4_witness :
    (∀ p ∈ [((⟨0, 0, 2, 2⟩ : RectWire), EncCase.hextile),
        (⟨2, 0, 2, 2⟩, EncCase.zrle ZrleExit.tilesDecoded)],
      p.2 = EncCase.hextile ∨ p.2 = EncCase.zrle ZrleExit.tilesDecoded ∨
        p.2 = EncCase.tight false) ∧
    framebufferUpdateEvents 32
        [(⟨0, 0, 2, 2⟩, EncCase.hextile), (⟨2, 0, 2, 2⟩, EncCase.zrle ZrleExit.tilesDecoded)] =
      [Ev.img ⟨0, 0, 2, 2⟩, Ev.img ⟨2, 0, 2, 2⟩, Ev.fbur true] :=
  ⟨by decide,
   c4_theorem 32
     [(⟨0, 0, 2, 2⟩, EncCase.hextile), (⟨2, 0, 2, 2⟩, EncCase.zrle ZrleExit.tilesDecoded)]
     (by decide)⟩

/-- Counterexample to C4 as stated: a single Raw rectangle of height 2 yields
three ImageChanged emissions (one per row inside the decoder plus the one of
the update loop), not exactly one, and a FramebufferUpdateRequest is sent
before the trace ends. -/
theorem c4_counterexample :
    framebufferUpdateEvents 32 [(⟨0, 0, 1, 2⟩, EncCase.raw)] =
      [Ev.img ⟨0, 0, 1, 2⟩, Ev.img ⟨0, 0, 1, 2⟩, Ev.fbur true,
        Ev.img ⟨0, 0, 1, 2⟩, Ev.fbur true] ∧
    (framebufferUpdateEvents 32 [(⟨0, 0, 1, 2⟩, EncCase.raw)]).count
        (Ev.img ⟨0, 0, 1, 2⟩) = 3 ∧
    framebufferUpdateEvents 32 [(⟨0, 0, 1, 2⟩, EncCase.raw)] ≠
      [Ev.img ⟨0, 0, 1, 2⟩, Ev.fbur true] := by
  decide

/-- C5 (amended): after ServerInit with dimensions (W, H) the framebuffer
image has size exactly W by H, and every ImageChanged rectangle of an update
trace is one of the wire rectangles of that update, emitted verbatim — the
engine performs no clamping, so containment in the framebuffer holds only
when the rectangles sent by the server already lie inside it (`c5_counterexample`
exhibits an out-of-bounds emission). -/
theorem c5_theorem (fbWidth fbHeight bpp : Nat) (rs : List (RectWire × EncCase)) (r : RectWire) :
    (serverInitImage fbWidth fbHeight).width = fbWidth ∧
    (serverInitImage fbWidth fbHeight).height = fbHeight ∧
    (Ev.img r ∈ framebufferUpdateEvents bpp rs → ∃ e, (r, e) ∈ rs) := by
  refine ⟨rfl, rfl, ?_⟩
  induction rs with
  | nil =>
    intro hr
    simp [framebufferUpdateEvents] at hr
  | cons p rest ih =>
    intro hr
    obtain ⟨r0, e0⟩ := p
    simp only [framebufferUpdateEvents, List.mem_append] at hr
    rcases hr with (hr | hr) | hr
    · have := rectangleEvents_img_eq bpp r0 e0 r hr
      subst this
      exact ⟨e0, List.mem_cons_self _ _⟩
    · by_cases he : e0 = EncCase.unknownTag
      · simp [he] at hr
      · simp [he] at hr
        subst hr
        exact ⟨e0, List.mem_cons_self _ _⟩
    · obtain ⟨e, he⟩ := ih hr
      exact ⟨e, List.mem_cons_of_mem _ he⟩

/-- Witness for `c5_theorem` at a concrete emission. -/
theorem c5_witness :
    Ev.img ⟨1, 1, 2, 2⟩ ∈ framebufferUpdateEvents 32 [(⟨1, 1, 2, 2⟩, EncCase.hextile)] ∧
    (serverInitImage 4 4).width = 4 ∧
    (serverInitImage 4 4).height = 4 ∧
    (∃ e, ((⟨1, 1, 2, 2⟩ : RectWire), e) ∈ [((⟨1, 1, 2, 2⟩ : RectWire), EncCase.hextile)]) :=
  ⟨by decide,
   (c5_theorem 4 4 32 [(⟨1, 1, 2, 2⟩, EncCase.hextile)] ⟨1, 1, 2, 2⟩).1,
   (c5_theorem 4 4 32 [(⟨1, 1, 2, 2⟩, EncCase.hextile)] ⟨1, 1, 2, 2⟩).2.1,
   (c5_theorem 4 4 32 [(⟨1, 1, 2, 2⟩, EncCase.hextile)] ⟨1, 1, 2, 2⟩).2.2 (by decide)⟩

/-- Counterexample to C5 as stated: with a 4 by 4 framebuffer established by
ServerInit, a server-supplied ZRLE rectangle at (10, 10) of size 5 by 5 (one
whose compressed length field is zero, so the decoder returns at once) still
makes the update loop emit ImageChanged for exactly that rectangle, which is
not contained in the 4 by 4 framebuffer. -/
theorem c5_counterexample :
    (serverInitImage 4 4).width = 4 ∧
    (serverInitImage 4 4).height = 4 ∧
    Ev.img ⟨10, 10, 5, 5⟩ ∈
      framebufferUpdateEvents 32 [(⟨10, 10, 5, 5⟩, EncCase.zrle ZrleExit.emptyPayload)] ∧
    ¬ rectInFramebuffer (serverInitImage 4 4).width (serverInitImage 4 4).height
        ⟨10, 10, 5, 5⟩ := by
  refine ⟨rfl, rfl, by decide, by decide⟩

/-- C6 (amended): the client reads exactly 12 bytes; each of the three
recognized version strings makes the client reply with the 12 bytes
RFB 003.003 plus newline (3.3 is selected regardless of the offer) and move
to the security state; any other 12-byte string only logs a warning — the
version stays unknown, no reply is written, the handshake remains in the
version state, and the connection is NOT failed or closed. -/
theorem c6_theorem (value : List Nat) :
    (value = rfbVersion33 ∨ value = rfbVersion37 ∨ value = rfbVersion38 →
      versionHandshakeStep value =
        ⟨rfbVersion33, HandshakingState.securityState, false⟩ ∧
      rfbVersion33.length = 12) ∧
    (value ≠ rfbVersion33 → value ≠ rfbVersion37 → value ≠ rfbVersion38 →
      versionHandshakeStep value =
        ⟨[], HandshakingState.protocolVersionState, false⟩) := by
  constructor
  · rintro (rfl | rfl | rfl) <;> exact ⟨rfl, rfl⟩
  · intro h1 h2 h3
    simp [versionHandshakeStep, parseProtocolVersionBytes, h1, h2, h3,
      protocolVersionChangedStep]

/-- Witness for `c6_theorem` at the 3.8 offer: the reply is still 3.3. -/
theorem c6_witness :
    versionHandshakeStep rfbVersion38 =
      ⟨rfbVersion33, HandshakingState.securityState, false⟩ ∧
    rfbVersion33.length = 12 :=
  (c6_theorem rfbVersion38).1 (Or.inr (Or.inr rfl))

/-- Counterexample to C6 as stated: on the unrecognized 12-byte string
RFB 009.009 with newline the connection does not fail — the engine writes no
reply, stays in the version-negotiation state, and keeps the socket open. -/
theorem c6_counterexample :
    unknownVersionBytes.length = 12 ∧
    (versionHandshakeStep unknownVersionBytes).connectionFailed = false ∧
    (versionHandshakeStep unknownVersionBytes).reply = [] ∧
    (versionHandshakeStep unknownVersionBytes).nextState =
      HandshakingState.protocolVersionState := by
  decide

/-- C7 (amended): the Raw decoder always interprets the 32-bit pixel word as
little-endian, whatever bigEndianFlag says — its result coincides with the
result under a format whose bigEndianFlag is forced to 0, and it matches the
interpretation of the claim exactly when the flag is 0. -/
theorem c7_theorem (pf : PixelFormat) (input : List Nat) :
    rawDecodeOnePixel pf input =
      rawDecodeOnePixel
        ⟨pf.bitsPerPixel, 0, pf.redMax, pf.greenMax, pf.blueMax,
          pf.redShift, pf.greenShift, pf.blueShift⟩ input ∧
    (pf.bigEndianFlag = 0 → claimRawPixelWord pf input = readQuint32LE input) := by
  constructor
  · rfl
  · intro h
    rcases input with _ | ⟨b0, _ | ⟨b1, _ | ⟨b2, _ | ⟨b3, rest⟩⟩⟩⟩ <;>
      simp [claimRawPixelWord, readQuint32LE, h]

/-- Witness for `c7_theorem` on a little-endian format. -/
theorem c7_witness :
    pfLittleEndian.bigEndianFlag = 0 ∧
    claimRawPixelWord pfLittleEndian [1, 2, 3, 4] = readQuint32LE [1, 2, 3, 4] :=
  ⟨rfl, (c7_theorem pfLittleEndian [1, 2, 3, 4]).2 rfl⟩

/-- Counterexample to C7 as stated: with bigEndianFlag = 1 the claim demands
the bytes 01 00 00 00 be read as 0x01000000, but the code reads them through
`quint32_le` as 1, and the two words extract to different colours. -/
theorem c7_counterexample :
    pfBigEndian.bigEndianFlag = 1 ∧
    readQuint32LE [1, 0, 0, 0] = some (1, []) ∧
    claimRawPixelWord pfBigEndian [1, 0, 0, 0] = some (16777216, []) ∧
    rawDecodeOnePixel pfBigEndian [1, 0, 0, 0] = some (0xFF000001, []) ∧
    pixelToRgb pfBigEndian 16777216 = 0xFF000000 ∧
    pixelToRgb pfBigEndian 1 ≠ pixelToRgb pfBigEndian 16777216 := by
  decide

/-- C8 (amended): a JPEG control byte (low nibble 9) resets nothing, because
the JPEG dispatch returns from the handler before the reset block; on the
non-JPEG path only bit 7 acts as a reset flag and it resets only the single
stream selected by bits 0-1; a control byte with bit 7 clear resets nothing,
and streams other than `compControl & 3` always keep their history, so no
control byte ever resets more than one stream. -/
theorem c8_theorem (compControl : Nat) (hist : Fin 4 → List Nat) :
    (compControl &&& 0x0F = 0x09 → tightApplyControl compControl hist = hist) ∧
    (compControl &&& 0x80 = 0 →
      ∀ k : Fin 4, tightApplyControl compControl hist k = hist k) ∧
    (∀ k : Fin 4, (k : Nat) ≠ compControl &&& 0x03 →
      tightApplyControl compControl hist k = hist k) ∧
    (compControl &&& 0x0F ≠ 0x09 → compControl &&& 0x80 ≠ 0 →
      ∀ k : Fin 4, (k : Nat) = compControl &&& 0x03 →
      tightApplyControl compControl hist k = []) := by
  refine ⟨?_, ?_, ?_, ?_⟩
  · intro h9
    simp [tightApplyControl, h9]
  · intro h k
    unfold tightApplyControl
    by_cases h9 : compControl &&& 0x0F = 0x09 <;> simp [h9, h]
  · intro k hk
    unfold tightApplyControl
    by_cases h9 : compControl &&& 0x0F = 0x09 <;> simp [h9, hk]
  · intro h9 h k hk
    simp [tightApplyControl, h9, h, hk]

/-- Witness for `c8_theorem`: control byte 0x10 has bit 7 clear, so no stream
is reset, and the JPEG control byte 0x89 leaves all four histories intact. -/
theorem c8_witness :
    ((0x10 : Nat) &&& 0x80 = 0) ∧
    tightApplyControl 0x10 oneEntryHistories 2 = oneEntryHistories 2 ∧
    ((0x89 : Nat) &&& 0x0F = 0x09) ∧
    tightApplyControl 0x89 oneEntryHistories = oneEntryHistories :=
  ⟨by decide, (c8_theorem 0x10 oneEntryHistories).2.1 (by decide) 2,
   by decide, (c8_theorem 0x89 oneEntryHistories).1 (by decide)⟩

/-- Counterexample to C8 as stated: control byte 0x10 sets bit 4, which per
the claim clears stream 0, but the code tests only bit 7 and resets nothing;
and the JPEG control byte 0x89 (bit 7 of the high nibble set, so per the
claim stream 3 is cleared) makes the handler return before the reset block,
leaving stream 3 intact too. -/
theorem c8_counterexample :
    tightApplyControl 0x10 oneEntryHistories 0 = [42] ∧
    claimApplyControl 0x10 oneEntryHistories 0 = [] ∧
    tightApplyControl 0x10 oneEntryHistories 0 ≠ claimApplyControl 0x10 oneEntryHistories 0 ∧
    tightApplyControl 0x89 oneEntryHistories 3 = [42] ∧
    claimApplyControl 0x89 oneEntryHistories 3 = [] ∧
    tightApplyControl 0x89 oneEntryHistories 3 ≠ claimApplyControl 0x89 oneEntryHistories 3 := by
  decide

/-- C2 evaluated at the failing input: a second rectangle whose payload
back-references the output of the first rectangle decodes to different bytes under
the per-rectangle stateless decompression of the code than under the persistent
context the claim (and the RFB ZRLE specification) requires. -/
theorem c2_theorem :
    zrleDecodePerRect [ZTok.lit 7] [ZTok.back 1] = ([7], [0]) ∧
    zrleDecodePersistent [ZTok.lit 7] [ZTok.back 1] = ([7], [7]) ∧
    zrleDecodePerRect [ZTok.lit 7] [ZTok.back 1] ≠
      zrleDecodePersistent [ZTok.lit 7] [ZTok.back 1] := by
  decide

/-- C10 (confirmed): keyEvent always writes a complete 8-byte message with
type 4, the down flag and two padding bytes; when the key is unmapped and the
text empty, the keysym field carries the uninitialized variable, so the bytes
emitted are not determined by the event (two junk values give two different
messages). -/
theorem c10_theorem (isPress : Bool) (key : Nat) (text : List Nat) (junk : Nat) :
    (keyEventBytes isPress key text junk).length = 8 ∧
    (keyEventBytes isPress key text junk).take 4 =
      [4, if isPress then 1 else 0, 0x20, 0x20] ∧
    (keyMapList.lookup key = none → text = [] →
      keyEventBytes isPress key text junk =
        4 :: (if isPress then 1 else 0) :: 0x20 :: 0x20 :: be32 junk) ∧
    (keyMapList.lookup key = none →
      keyEventBytes isPress key [] 0 ≠ keyEventBytes isPress key [] 1) := by
  refine ⟨?_, ?_, ?_, ?_⟩
  · simp [keyEventBytes, be32]
  · simp [keyEventBytes, be32]
  · intro h ht
    subst ht
    simp [keyEventBytes, keyEventKeysym, h]
  · intro h
    simp only [keyEventBytes, keyEventKeysym, h, ne_eq, List.cons.injEq, true_and,
      and_true, eq_self_iff_true]
    decide

/-- Witness for `c10_theorem` at the space key, which has no map entry. -/
theorem c10_witness :
    keyMapList.lookup 0x20 = none ∧
    keyEventBytes true 0x20 [] 0 ≠ keyEventBytes true 0x20 [] 1 :=
  ⟨by decide, (c10_theorem true 0x20 [] 0).2.2.2 (by decide)⟩

theorem shiftLeft_lor_eq_add (a b k : Nat) (hb : b < 2 ^ k) :
    (a <<< k) ||| b = a * 2 ^ k + b := by
  rw [Nat.shiftLeft_eq, Nat.mul_comm a (2 ^ k)]
  exact (Nat.mul_add_lt_is_or hb a).symm

theorem byte_and_7f (b : Nat) : b &&& 0x7F = b % 128 := by
  have h := Nat.and_pow_two_sub_one_eq_mod b 7
  norm_num at h
  exact h

set_option maxRecDepth 8192 in
theorem byte_and_80_eq_zero (b : Nat) (hb : b < 256) (h : b < 128) : b &&& 0x80 = 0 := by
  have hd : ∀ x < 256, x < 128 → x &&& 0x80 = 0 := by decide
  exact hd b hb h

set_option maxRecDepth 8192 in
theorem byte_and_80_ne_zero (b : Nat) (hb : b < 256) (h : 128 ≤ b) : b &&& 0x80 ≠ 0 := by
  have hd : ∀ x < 256, 128 ≤ x → x &&& 0x80 ≠ 0 := by decide
  exact hd b hb h

theorem three_byte_be (m b1 b2 : Nat) (h1 : b1 < 256) (h2 : b2 < 256) :
    ((m <<< 16) ||| (b1 <<< 8)) ||| b2 = m * 65536 + (b1 * 256 + b2) := by
  have e1 : b1 <<< 8 = b1 * 256 := by
    norm_num [Nat.shiftLeft_eq]
  have e2 : (m <<< 16) ||| (b1 <<< 8) = m * 65536 + b1 * 256 := by
    rw [e1]
    have h := shiftLeft_lor_eq_add m (b1 * 256) 16 (by omega)
    simpa using h
  rw [e2]
  have e3 : m * 65536 + b1 * 256 = (m * 256 + b1) <<< 8 := by
    rw [Nat.shiftLeft_eq]
    ring
  rw [e3]
  have e4 := shiftLeft_lor_eq_add (m * 256 + b1) b2 8 (by omega)
  rw [e4]
  ring

/-- C3 (amended): the JPEG path reads one length byte and, when its high bit
is set, exactly two more, combining them BIG-endian as
`(b0 & 0x7F)·65536 + b1·256 + b2`; the basic-compression path chooses between
one raw length byte and an unmasked big-endian three-byte length according to
bit 7 of the compression-control byte.  Neither path implements the 7-bit
little-endian continuation scheme of the claim. -/
theorem c3_theorem (b0 b1 b2 : Nat) (rest : List Nat) (compControl : Nat)
    (hb0 : b0 < 256) (hb1 : b1 < 256) (hb2 : b2 < 256) :
    (b0 < 128 → tightJpegLength (b0 :: rest) = some (b0, rest)) ∧
    (128 ≤ b0 → tightJpegLength (b0 :: b1 :: b2 :: rest) =
      some ((b0 - 128) * 65536 + (b1 * 256 + b2), rest)) ∧
    (compControl &&& 0x80 = 0 →
      tightBasicLength compControl (b0 :: rest) = some (b0, rest)) ∧
    (compControl &&& 0x80 ≠ 0 →
      tightBasicLength compControl (b0 :: b1 :: b2 :: rest) =
        some (b0 * 65536 + (b1 * 256 + b2), rest)) := by
  refine ⟨?_, ?_, ?_, ?_⟩
  · intro h
    have h80 := byte_and_80_eq_zero b0 hb0 h
    simp [tightJpegLength, h80]
  · intro h
    have h80 := byte_and_80_ne_zero b0 hb0 h
    have h7f : b0 &&& 0x7F = b0 - 128 := by
      rw [byte_and_7f b0]
      omega
    simp only [tightJpegLength, if_pos h80]
    rw [h7f, three_byte_be (b0 - 128) b1 b2 hb1 hb2]
  · intro h
    simp [tightBasicLength, h]
  · intro h
    simp only [tightBasicLength, if_neg h]
    rw [three_byte_be b0 b1 b2 hb1 hb2]

/-- Witness for `c3_theorem`: the JPEG length bytes 0x81 0x01 0x00 decode to
65792 under the big-endian scheme of the code. -/
theorem c3_witness :
    (128 ≤ 129) ∧
    tightJpegLength [129, 1, 0] = some ((129 - 128) * 65536 + (1 * 256 + 0), []) :=
  ⟨by decide,
   (c3_theorem 129 1 0 [] 0x91 (by decide) (by decide) (by decide)).2.1 (by decide)⟩

/-- Counterexample to C3 as stated: on the bytes 0x81 0x01 0x00 the claimed
continuation scheme stops after two bytes and yields length 129, but the
JPEG path consumes three bytes and yields 65792; and on control byte 0x00
with payload bytes 0x85 0x02 the basic path returns the single raw byte 0x85
(133), where the claimed scheme would continue and yield 261. -/
theorem c3_counterexample :
    tightJpegLength [0x81, 0x01, 0x00] = some (65792, []) ∧
    claimTightLength [0x81, 0x01, 0x00] = some (129, [0x00]) ∧
    tightJpegLength [0x81, 0x01, 0x00] ≠ claimTightLength [0x81, 0x01, 0x00] ∧
    tightBasicLength 0x00 [0x85, 0x02] = some (0x85, [0x02]) ∧
    claimTightLength [0x85, 0x02] = some (261, []) ∧
    tightBasicLength 0x00 [0x85, 0x02] ≠ claimTightLength [0x85, 0x02] := by
  decide

/-- C9 (amended; the Raw half of the claim holds, the Hextile half does not):
when bitsPerPixel is not 32 the Raw decoder aborts the rectangle at its first
pixel with a warning — no pixel write, no row notification, no trailing
request — and the connection continues; the Hextile decoder has no such
abort: a non-raw tile (shown here without subrects) is still painted over its
full area from the CURRENT, possibly stale, background variable, consumes
none of the bytes of the tile, and logs nothing. -/
theorem c9_theorem (pf : PixelFormat) (r : RectWire) (input : List Nat)
    (x0 y0 tw th s bg fg : Nat) (tileInput : List Nat)
    (hbpp : pf.bitsPerPixel ≠ 32) :
    (0 < r.w → 0 < r.h → handleRawEncodingWrites pf r input = none ∧
      handleRawEncodingEvents pf.bitsPerPixel r = []) ∧
    (s &&& 1 = 0 → s &&& 8 = 0 →
      hextileTile pf x0 y0 tw th s bg fg tileInput =
        some (hextileFill pf x0 y0 tw th bg, (bg, fg), tileInput)) := by
  constructor
  · intro hw hh
    obtain ⟨x, y, w, h⟩ := r
    simp only at hw hh
    cases w with
    | zero => omega
    | succ w0 =>
      cases h with
      | zero => omega
      | succ h0 =>
        constructor
        · simp [handleRawEncodingWrites, rawRowsWrites, rawRowWrites, hbpp]
        · simp [handleRawEncodingEvents, rawRowsEvents, hbpp]
  · intro h1 h8
    simp [hextileTile, h1, h8, hbpp]

/-- Witness for `c9_theorem` at a 16-bpp format, a one-pixel Raw rectangle
and a one-pixel background-specified Hextile tile. -/
theorem c9_witness :
    pf16.bitsPerPixel ≠ 32 ∧ (0 : Nat) < 1 ∧
    (handleRawEncodingWrites pf16 ⟨0, 0, 1, 1⟩ [] = none ∧
      handleRawEncodingEvents pf16.bitsPerPixel ⟨0, 0, 1, 1⟩ = []) ∧
    hextileTile pf16 0 0 1 1 2 0 0 [9, 9] =
      some (hextileFill pf16 0 0 1 1 0, (0, 0), [9, 9]) :=
  ⟨by decide, by decide,
   (c9_theorem pf16 ⟨0, 0, 1, 1⟩ [] 0 0 1 1 2 0 0 [9, 9] (by decide)).1
     (by decide) (by decide),
   (c9_theorem pf16 ⟨0, 0, 1, 1⟩ [] 0 0 1 1 2 0 0 [9, 9] (by decide)).2
     (by decide) (by decide)⟩

/-- Counterexample to C9 as stated: with a 16-bpp format a Hextile tile whose
subencoding is BackgroundSpecified (2) is NOT aborted and no warning path
exists — the tile is filled from the stale background value 0 (a pixel write
of opaque black at (0,0)) while the background bytes the server sent stay
unread in the stream. -/
theorem c9_counterexample :
    pf16.bitsPerPixel = 16 ∧
    hextileTile pf16 0 0 1 1 2 0 0 [0xAB, 0xCD] =
      some ([((0, 0), 0xFF000000)], (0, 0), [0xAB, 0xCD]) ∧
    hextileTile pf16 0 0 1 1 2 0 0 [0xAB, 0xCD] ≠ none := by
  decide

